import Mathlib

/-!
Verification of the filtering and fuzzy municipality-suggestion pipeline of
the population-dashboard application (`src/Streamlit.py`).

The data model and operations below are a shallow embedding of the Python
source: a pandas `DataFrame` row becomes a `Record`, a `DataFrame` becomes a
`List Record`, and each Python function becomes a Lean function of the same
name.  Library calls (`unicodedata`, `fuzzywuzzy`, pandas reductions) are
modelled by executable Lean functions faithful to the library semantics the
code relies on, as noted at each definition.
-/

namespace Dashboard

/-- One row of the loaded dataframe: the columns produced by `load_data`
(`Ano`, `População`, `Código`, `Município`, `UF`, `Região`; the geographic
columns are irrelevant to the claims and omitted).  `load_data` coerces
`População` to numeric and drops nulls, so the field is total here; the
habitant counts are integers. -/
structure Record where
  ano : String
  populacao : Int
  codigo : String
  municipio : String
  uf : String
  regiao : String
deriving DecidableEq, Repr, Inhabited

/-- Embedding of `filter_data` (src/Streamlit.py lines 105-113): start from a
copy of the dataframe and successively restrict by equality on `Ano`, `UF`
and `Região`, each restriction skipped when the corresponding argument is the
sentinel (`"Todos"` / `"Todos"` / `"Todas"`). -/
def filter_data (df : List Record) (ano uf regiao : String) : List Record :=
  let filtered := df
  let filtered := if ano ≠ "Todos" then filtered.filter (fun r => r.ano = ano) else filtered
  let filtered := if uf ≠ "Todos" then filtered.filter (fun r => r.uf = uf) else filtered
  let filtered := if regiao ≠ "Todas" then filtered.filter (fun r => r.regiao = regiao) else filtered
  filtered

/-- State-passing form of `filter_data`: the Python function receives the
session dataframe (a mutable object) and returns a new frame; this embedding
returns the result together with the dataframe object after the call, making
the absence of mutation a provable statement.  The body mirrors the source:
`filtered = df.copy()` introduces a fresh value, every subsequent subsetting
rebinds `filtered` only, and `df` is never assigned. -/
def filter_data_run (store : List Record) (ano uf regiao : String) :
    List Record × List Record :=
  let df := store
  let filtered := df
  let filtered := if ano ≠ "Todos" then filtered.filter (fun r => r.ano = ano) else filtered
  let filtered := if uf ≠ "Todos" then filtered.filter (fun r => r.uf = uf) else filtered
  let filtered := if regiao ≠ "Todas" then filtered.filter (fun r => r.regiao = regiao) else filtered
  (filtered, df)

/-- The conjunctive predicate the spec ascribes to `filter_data`: each
equality is required unless the corresponding argument is its sentinel. -/
def matches_criteria (ano uf regiao : String) (r : Record) : Bool :=
  decide ((ano = "Todos" ∨ r.ano = ano) ∧ (uf = "Todos" ∨ r.uf = uf) ∧
    (regiao = "Todas" ∨ r.regiao = regiao))

theorem filter_data_eq_filter (df : List Record) (ano uf regiao : String) :
    filter_data df ano uf regiao = df.filter (matches_criteria ano uf regiao) := by
  unfold filter_data matches_criteria
  by_cases ha : ano = "Todos" <;> by_cases hu : uf = "Todos" <;>
    by_cases hr : regiao = "Todas" <;>
  simp only [ha, hu, hr, ne_eq, not_true_eq_false, not_false_eq_true, if_true, if_false,
    List.filter_filter] <;>
  first
  | (refine (List.filter_congr (fun r _ => ?_)).symm <;>
      simp [ha, hu, hr, Bool.and_comm, Bool.and_left_comm, Bool.and_assoc])
  | simp

/-- Claim C1: `filter_data` returns exactly the records of the input satisfying the
conjunction of the non-sentinel equality predicates (`Ano` unless the year is
"Todos", `UF` unless the state is "Todos", `Região` unless the region is
"Todas"); the result is a single pass of `List.filter`, hence a possibly
empty sublist of the input preserving relative order, and membership is the
stated conjunction. -/
theorem c1_filter_exact (df : List Record) (ano uf regiao : String) :
    filter_data df ano uf regiao = df.filter (matches_criteria ano uf regiao) ∧
    (filter_data df ano uf regiao).Sublist df ∧
    ∀ r : Record, r ∈ filter_data df ano uf regiao ↔
      r ∈ df ∧ (ano = "Todos" ∨ r.ano = ano) ∧ (uf = "Todos" ∨ r.uf = uf) ∧
        (regiao = "Todas" ∨ r.regiao = regiao) := by
  refine ⟨filter_data_eq_filter df ano uf regiao, ?_, ?_⟩
  · rw [filter_data_eq_filter]; exact List.filter_sublist df
  · intro r
    rw [filter_data_eq_filter, List.mem_filter, matches_criteria]
    simp [and_assoc]

/-- Claim C5: filtering is idempotent — applying `filter_data` twice with the same
criteria gives the same result as applying it once. -/
theorem c5_filter_idempotent (df : List Record) (ano uf regiao : String) :
    filter_data (filter_data df ano uf regiao) ano uf regiao =
      filter_data df ano uf regiao := by
  rw [filter_data_eq_filter, filter_data_eq_filter, List.filter_filter]
  exact List.filter_congr (fun r _ => by cases matches_criteria ano uf regiao r <;> simp)

/-- Claim C6: sentinel neutrality — with state "Todos" and region "Todas",
`filter_data` is the selection of the dataset by year alone, and the outcome
is invariant under any rewriting of the records that preserves the year
field (in particular it does not depend on the state or region values
present in the dataset). -/
theorem c6_sentinel_neutrality (df : List Record) (ano : String) :
    filter_data df ano "Todos" "Todas" =
      df.filter (fun r => decide (ano = "Todos" ∨ r.ano = ano)) ∧
    ∀ f : Record → Record, (∀ r, (f r).ano = r.ano) →
      filter_data (df.map f) ano "Todos" "Todas" =
        (filter_data df ano "Todos" "Todas").map f := by
  have key : ∀ d : List Record, filter_data d ano "Todos" "Todas" =
      d.filter (fun r => decide (ano = "Todos" ∨ r.ano = ano)) := by
    intro d
    rw [filter_data_eq_filter]
    exact List.filter_congr (fun r _ => by simp [matches_criteria])
  refine ⟨key df, fun f hf => ?_⟩
  rw [key, key, List.filter_map]
  refine congrArg _ (List.filter_congr (fun r _ => ?_))
  simp [Function.comp, hf r]

/-- Claim C7: filtering never mutates the source dataset — in the state-passing
embedding `filter_data_run` the dataframe handed back after the call is the
one passed in, the returned view agrees with the pure `filter_data`, and the
view is a sublist (a derived selection) of the source. -/
theorem c7_filter_no_mutation (store : List Record) (ano uf regiao : String) :
    (filter_data_run store ano uf regiao).2 = store ∧
    (filter_data_run store ano uf regiao).1 = filter_data store ano uf regiao ∧
    (filter_data store ano uf regiao).Sublist store := by
  refine ⟨rfl, rfl, ?_⟩
  rw [filter_data_eq_filter]; exact List.filter_sublist store

/-- Canonical (NFD) decompositions of the precomposed Latin letters appearing
in the Brazilian municipality data the application processes: each maps to
its base letter followed by a combining diacritical mark.  This is the
character repertoire over which `unicodedata.normalize('NFD', ·)` is
modelled; every other character is taken as its own decomposition. -/
def nfdTable : List (Char × List Char) := [
  ('á', ['a', '́']), ('â', ['a', '̂']), ('ã', ['a', '̃']),
  ('à', ['a', '̀']), ('ä', ['a', '̈']),
  ('ç', ['c', '̧']),
  ('é', ['e', '́']), ('ê', ['e', '̂']), ('è', ['e', '̀']),
  ('ë', ['e', '̈']),
  ('í', ['i', '́']), ('î', ['i', '̂']), ('ï', ['i', '̈']),
  ('ó', ['o', '́']), ('ô', ['o', '̂']), ('õ', ['o', '̃']),
  ('ö', ['o', '̈']),
  ('ú', ['u', '́']), ('û', ['u', '̂']), ('ü', ['u', '̈']),
  ('Á', ['A', '́']), ('Â', ['A', '̂']), ('Ã', ['A', '̃']),
  ('À', ['A', '̀']), ('Ä', ['A', '̈']),
  ('Ç', ['C', '̧']),
  ('É', ['E', '́']), ('Ê', ['E', '̂']), ('È', ['E', '̀']),
  ('Ë', ['E', '̈']),
  ('Í', ['I', '́']), ('Î', ['I', '̂']), ('Ï', ['I', '̈']),
  ('Ó', ['O', '́']), ('Ô', ['O', '̂']), ('Õ', ['O', '̃']),
  ('Ö', ['O', '̈']),
  ('Ú', ['U', '́']), ('Û', ['U', '̂']), ('Ü', ['U', '̈'])]

/-- Model of `unicodedata.normalize('NFD', ·)` on one character: look the
character up in `nfdTable`, defaulting to the character itself. -/
def unicodeNFD (c : Char) : List Char :=
  match nfdTable.find? (fun p => p.1 == c) with
  | some p => p.2
  | none => [c]

/-- Model of `unicodedata.category(c) == 'Mn'`: the combining diacritical
marks block U+0300 to U+036F, which contains every mark produced by
`nfdTable`. -/
def categoryMn (c : Char) : Bool :=
  decide (0x300 ≤ c.toNat ∧ c.toNat ≤ 0x36F)

/-- Lower-case mapping table modelling `str.lower` on the repertoire: the
ASCII letters plus the precomposed accented capitals. -/
def lowerTable : List (Char × Char) :=
  ((List.range 26).map (fun i => (Char.ofNat (0x41 + i), Char.ofNat (0x61 + i)))) ++
  [('Á', 'á'), ('Â', 'â'), ('Ã', 'ã'), ('À', 'à'), ('Ä', 'ä'), ('Ç', 'ç'),
   ('É', 'é'), ('Ê', 'ê'), ('È', 'è'), ('Ë', 'ë'),
   ('Í', 'í'), ('Î', 'î'), ('Ï', 'ï'),
   ('Ó', 'ó'), ('Ô', 'ô'), ('Õ', 'õ'), ('Ö', 'ö'),
   ('Ú', 'ú'), ('Û', 'û'), ('Ü', 'ü')]

/-- Model of `str.lower` on one character. -/
def lowerChar (c : Char) : Char :=
  match lowerTable.find? (fun p => p.1 == c) with
  | some p => p.2
  | none => c

/-- The per-character pipeline of `remover_acentos_e_lower`: decompose,
discard combining marks, lower-case. -/
def pipelineChar (c : Char) : List Char :=
  ((unicodeNFD c).filter (fun x => !(categoryMn x))).map lowerChar

/-- Embedding of `remover_acentos_e_lower` (src/Streamlit.py lines 279-283)
on character lists: NFD-decompose the text, keep the characters whose
category is not `Mn`, and lower-case the result. -/
def remover_acentos_e_lower_chars (l : List Char) : List Char :=
  ((l.flatMap unicodeNFD).filter (fun c => !(categoryMn c))).map lowerChar

/-- Embedding of `remover_acentos_e_lower` on strings. -/
def remover_acentos_e_lower (s : String) : String :=
  String.mk (remover_acentos_e_lower_chars s.data)

theorem remover_chars_eq_flatMap (l : List Char) :
    remover_acentos_e_lower_chars l = l.flatMap pipelineChar := by
  unfold remover_acentos_e_lower_chars pipelineChar
  rw [List.filter_flatMap, List.map_flatMap]

theorem pipelineChar_stable (c : Char) :
    ∀ d ∈ pipelineChar c,
      unicodeNFD d = [d] ∧ categoryMn d = false ∧ lowerChar d = d := by
  intro d hd
  unfold pipelineChar unicodeNFD at hd
  rcases hfind : nfdTable.find? (fun p => p.1 == c) with _ | p
  · rw [hfind] at hd
    by_cases hmn : categoryMn c
    · simp [hmn] at hd
    · simp [hmn] at hd
      subst hd
      rcases hlow : lowerTable.find? (fun p => p.1 == c) with _ | q
      · have hcc : lowerChar c = c := by unfold lowerChar; rw [hlow]
        rw [hcc]
        refine ⟨?_, by simpa using hmn, hcc⟩
        unfold unicodeNFD; rw [hfind]
      · have hq : q ∈ lowerTable := List.mem_of_find?_eq_some hlow
        have hq1 : q.1 = c := by
          have := List.find?_some hlow; simpa using this
        have hcq : lowerChar c = q.2 := by unfold lowerChar; rw [hlow]
        have key : ∀ q ∈ lowerTable,
            (nfdTable.find? (fun p => p.1 == q.1)).isSome = true ∨
            (unicodeNFD q.2 = [q.2] ∧ categoryMn q.2 = false ∧
              lowerChar q.2 = q.2) := by decide
        rcases key q hq with h | h
        · rw [hq1, hfind] at h; simp at h
        · rw [hcq]; exact h
  · have hp : p ∈ nfdTable := List.mem_of_find?_eq_some hfind
    rw [hfind] at hd
    simp only [List.mem_map, List.mem_filter] at hd
    obtain ⟨x, ⟨hx, hxmn⟩, rfl⟩ := hd
    have key : ∀ p ∈ nfdTable, ∀ x ∈ p.2, categoryMn x = true ∨
        (unicodeNFD (lowerChar x) = [lowerChar x] ∧
          categoryMn (lowerChar x) = false ∧
          lowerChar (lowerChar x) = lowerChar x) := by decide
    rcases key p hp x hx with h | h
    · rw [h] at hxmn; simp at hxmn
    · exact h

theorem flatMap_pipelineChar_stable (xs : List Char)
    (h : ∀ d ∈ xs, unicodeNFD d = [d] ∧ categoryMn d = false ∧ lowerChar d = d) :
    xs.flatMap pipelineChar = xs := by
  induction xs with
  | nil => rfl
  | cons a as ih =>
    rw [List.flatMap_cons]
    obtain ⟨h1, h2, h3⟩ := h a (by simp)
    have ha : pipelineChar a = [a] := by
      unfold pipelineChar
      rw [h1]
      simp [h2, h3]
    rw [ha, ih (fun d hd => h d (by simp [hd]))]
    rfl

theorem remover_chars_idem (l : List Char) :
    remover_acentos_e_lower_chars (remover_acentos_e_lower_chars l) =
      remover_acentos_e_lower_chars l := by
  rw [remover_chars_eq_flatMap, remover_chars_eq_flatMap, List.flatMap_assoc]
  rw [show (fun x => (pipelineChar x).flatMap pipelineChar) = pipelineChar by
    funext c
    exact flatMap_pipelineChar_stable (pipelineChar c) (pipelineChar_stable c)]

/-- Claim C2: the normalization `remover_acentos_e_lower` (NFD decomposition,
combining-mark removal, lower-casing) is idempotent on every string, and
normalizes "São Paulo" to "sao paulo". -/
theorem c2_normalize_idempotent :
    (∀ s : String, remover_acentos_e_lower (remover_acentos_e_lower s) =
      remover_acentos_e_lower s) ∧
    remover_acentos_e_lower "São Paulo" = "sao paulo" := by
  constructor
  · intro s
    show String.mk _ = String.mk _
    exact congrArg String.mk (remover_chars_idem s.data)
  · decide

/-- Accumulator pass of the first-seen-order deduplication. -/
def dedupFirstAux (seen : List String) : List String → List String
  | [] => []
  | x :: xs =>
    if seen.contains x then dedupFirstAux seen xs
    else x :: dedupFirstAux (x :: seen) xs

/-- Model of pandas `Series.unique`: distinct values in first-seen order. -/
def dedupFirst (l : List String) : List String := dedupFirstAux [] l

/-- Inner loop of one Wagner-Fischer row update: walk the remaining
characters of the second string together with the tail of the previous row,
carrying the diagonal and left neighbours. -/
def levRowAux (x : Char) : List Char → List Nat → Nat → Nat → List Nat
  | [], _, _, _ => []
  | _, [], _, _ => []
  | y :: ys, p :: ps, diag, left =>
    let cur := if x = y then diag else 1 + min p (min left diag)
    cur :: levRowAux x ys ps p cur

/-- One Wagner-Fischer row update for source character `x`. -/
def levRow (x : Char) (ys : List Char) (prev : List Nat) : List Nat :=
  match prev with
  | [] => []
  | p :: ps => (p + 1) :: levRowAux x ys ps p (p + 1)

/-- Levenshtein edit distance on character lists (Wagner-Fischer dynamic
programming), the similarity core of the fuzzy matcher. -/
def lev (xs ys : List Char) : Nat :=
  (xs.foldl (fun row x => levRow x ys row) (List.range (ys.length + 1))).getLastD 0

/-- Model of the `fuzzywuzzy` similarity scorer: a 0-100 similarity ratio
derived from edit distance (100 for two empty strings). -/
def fuzz_ratio (a b : String) : Nat :=
  if a.data.length + b.data.length = 0 then 100
  else (100 * (a.data.length + b.data.length - lev a.data b.data)) /
    (a.data.length + b.data.length)

/-- Insertion step of a stable descending sort by score: an element moves
ahead only of strictly smaller scores, so equal scores keep input order. -/
def insertDesc (x : String × Nat) : List (String × Nat) → List (String × Nat)
  | [] => [x]
  | y :: ys => if y.2 < x.2 then x :: y :: ys else y :: insertDesc x ys

/-- Stable descending sort by score. -/
def sortDesc : List (String × Nat) → List (String × Nat)
  | [] => []
  | x :: xs => insertDesc x (sortDesc xs)

/-- Model of `fuzzywuzzy.process.extract(query, choices, limit)`: score every
choice, order by descending score keeping input order on ties (the
`heapq.nlargest` behaviour), and return the first `limit` scored pairs. -/
def process_extract (query : String) (choices : List String) (limit : Nat) :
    List (String × Nat) :=
  (sortDesc (choices.map (fun c => (c, fuzz_ratio query c)))).take limit

/-- The reverse lookup of `sugerir_municipios`:
`municipios[municipios_normalizados.index(m)]`, the original name at the
first index whose normalized form is `m`. -/
def reverse_lookup (municipios norm_list : List String) (m : String) : String :=
  municipios.getD (norm_list.indexOf m) ""

/-- Embedding of `sugerir_municipios` (src/Streamlit.py lines 118-123):
take the distinct municipality names, normalize them into an index-aligned
corpus, normalize the query, fuzzy-extract up to `limite` normalized
candidates, and map each back to its original name by first-index lookup. -/
def sugerir_municipios (municipio_digitado : String) (df : List Record)
    (limite : Nat) : List String :=
  let municipios := dedupFirst (df.map (fun r => r.municipio))
  let municipios_normalizados := municipios.map remover_acentos_e_lower
  let municipio_digitado_normalizado := remover_acentos_e_lower municipio_digitado
  let sugestoes := process_extract municipio_digitado_normalizado
    municipios_normalizados limite
  sugestoes.map (fun p => reverse_lookup municipios municipios_normalizados p.1)

theorem insertDesc_length (x : String × Nat) (l : List (String × Nat)) :
    (insertDesc x l).length = l.length + 1 := by
  induction l with
  | nil => rfl
  | cons y ys ih =>
    unfold insertDesc
    by_cases h : y.2 < x.2 <;> simp [h, ih]

theorem sortDesc_length (l : List (String × Nat)) :
    (sortDesc l).length = l.length := by
  induction l with
  | nil => rfl
  | cons x xs ih => rw [sortDesc, insertDesc_length, ih, List.length_cons]

theorem mem_insertDesc {y x : String × Nat} {l : List (String × Nat)}
    (h : y ∈ insertDesc x l) : y = x ∨ y ∈ l := by
  induction l with
  | nil =>
    rw [insertDesc] at h
    exact Or.inl (by simpa using h)
  | cons z zs ih =>
    rw [insertDesc] at h
    by_cases hz : z.2 < x.2
    · rw [if_pos hz] at h
      exact List.mem_cons.mp h
    · rw [if_neg hz] at h
      rcases List.mem_cons.mp h with h' | h'
      · exact Or.inr (List.mem_cons.mpr (Or.inl h'))
      · rcases ih h' with h'' | h''
        · exact Or.inl h''
        · exact Or.inr (List.mem_cons.mpr (Or.inr h''))

theorem mem_sortDesc {y : String × Nat} {l : List (String × Nat)}
    (h : y ∈ sortDesc l) : y ∈ l := by
  induction l with
  | nil => simp [sortDesc] at h
  | cons x xs ih =>
    rw [sortDesc] at h
    rcases mem_insertDesc h with h' | h'
    · simp [h']
    · simp [ih h']

theorem process_extract_length (q : String) (cs : List String) (k : Nat) :
    (process_extract q cs k).length ≤ k := by
  unfold process_extract
  rw [List.length_take]
  exact inf_le_left

theorem process_extract_mem {p : String × Nat} {q : String} {cs : List String}
    {k : Nat} (h : p ∈ process_extract q cs k) : p.1 ∈ cs := by
  unfold process_extract at h
  have h2 := mem_sortDesc (List.mem_of_mem_take h)
  rw [List.mem_map] at h2
  obtain ⟨c, hc, rfl⟩ := h2
  exact hc

theorem dedupFirstAux_subset : ∀ (l seen : List String),
    ∀ x ∈ dedupFirstAux seen l, x ∈ l := by
  intro l
  induction l with
  | nil => intro seen x hx; simp [dedupFirstAux] at hx
  | cons a as ih =>
    intro seen x hx
    rw [dedupFirstAux] at hx
    by_cases hs : seen.contains a
    · rw [if_pos hs] at hx
      exact List.mem_cons_of_mem a (ih seen x hx)
    · rw [if_neg hs] at hx
      rcases List.mem_cons.mp hx with h | h
      · simp [h]
      · exact List.mem_cons_of_mem a (ih (a :: seen) x h)

theorem dedupFirst_subset : ∀ (l : List String), ∀ x ∈ dedupFirst l, x ∈ l :=
  fun l => dedupFirstAux_subset l []

theorem indexOf_getD {m : String} : ∀ {l : List String}, m ∈ l →
    l.getD (l.indexOf m) "" = m := by
  intro l
  induction l with
  | nil => intro h; simp at h
  | cons a t ih =>
    intro h
    rw [List.indexOf_cons]
    by_cases ha : a = m
    · simp [ha]
    · have hbeq : (a == m) = false := by simp [ha]
      rw [hbeq]
      simp only [cond_false, List.getD_cons_succ]
      exact ih (by rcases List.mem_cons.mp h with h' | h' <;> [exact absurd h'.symm ha; exact h'])

theorem indexOf_min {m : String} : ∀ {l : List String} {j : Nat},
    j < l.indexOf m → l.getD j "" ≠ m := by
  intro l
  induction l with
  | nil => intro j hj; simp [List.indexOf] at hj
  | cons a t ih =>
    intro j hj
    rw [List.indexOf_cons] at hj
    by_cases ha : a = m
    · simp [ha] at hj
    · have hbeq : (a == m) = false := by simp [ha]
      rw [hbeq] at hj
      simp only [cond_false] at hj
      cases j with
      | zero => simpa using ha
      | succ n =>
        rw [List.getD_cons_succ]
        exact ih (Nat.lt_of_succ_lt_succ hj)

/-- Shared characterization of every element produced by
`sugerir_municipios`: it is obtained by the first-occurrence reverse lookup
of some normalized candidate of the corpus. -/
theorem sugerir_output_spec (q : String) (df : List Record) (k : Nat)
    (x : String) (hx : x ∈ sugerir_municipios q df k) :
    ∃ m i,
      i < (dedupFirst (df.map (fun r => r.municipio))).length ∧
      ((dedupFirst (df.map (fun r => r.municipio))).map
        remover_acentos_e_lower).getD i "" = m ∧
      (∀ j, j < i → ((dedupFirst (df.map (fun r => r.municipio))).map
        remover_acentos_e_lower).getD j "" ≠ m) ∧
      x = (dedupFirst (df.map (fun r => r.municipio))).getD i "" := by
  simp only [sugerir_municipios, List.mem_map] at hx
  obtain ⟨p, hp, hpx⟩ := hx
  have hm : p.1 ∈ (dedupFirst (df.map (fun r => r.municipio))).map
      remover_acentos_e_lower := process_extract_mem hp
  refine ⟨p.1, (List.indexOf (α := String) p.1
    ((dedupFirst (df.map (fun r => r.municipio))).map remover_acentos_e_lower)),
    ?_, indexOf_getD hm, fun j hj => indexOf_min hj, ?_⟩
  · have := List.indexOf_lt_length.mpr hm
    rwa [List.length_map] at this
  · exact hpx.symm

/-- Claim C3: the suggestion operation returns at most `limite` names, each an
original municipality name of the dataset; it returns the empty list when
the limit is 0 or the dataset (hence the municipality-name corpus) is
empty. -/
theorem c3_suggestion_bound (q : String) (df : List Record) (k : Nat) :
    (sugerir_municipios q df k).length ≤ k ∧
    sugerir_municipios q df 0 = [] ∧
    sugerir_municipios q ([] : List Record) k = [] ∧
    ∀ x ∈ sugerir_municipios q df k, x ∈ df.map (fun r => r.municipio) := by
  refine ⟨?_, ?_, ?_, ?_⟩
  · simp only [sugerir_municipios, List.length_map]
    exact process_extract_length _ _ _
  · simp [sugerir_municipios, process_extract]
  · simp [sugerir_municipios, process_extract, dedupFirst, dedupFirstAux, sortDesc]
  · intro x hx
    obtain ⟨m, i, hi, _, _, hxi⟩ := sugerir_output_spec q df k x hx
    have : x ∈ dedupFirst (df.map (fun r => r.municipio)) := by
      rw [hxi, List.getD_eq_getElem?_getD, List.getElem?_eq_getElem hi]
      exact List.getElem_mem hi
    exact dedupFirst_subset _ x this

/-- Claim C4: every suggested name is produced by the reverse lookup at the FIRST
index of the corpus whose normalized form equals the matched normalized
candidate — so when two distinct original names normalize identically, the
lookup resolves to the first occurrence in the distinct-name list, for every
dataset, query and limit. -/
theorem c4_first_match_lookup (q : String) (df : List Record) (k : Nat)
    (x : String) (hx : x ∈ sugerir_municipios q df k) :
    ∃ m i,
      i < (dedupFirst (df.map (fun r => r.municipio))).length ∧
      ((dedupFirst (df.map (fun r => r.municipio))).map
        remover_acentos_e_lower).getD i "" = m ∧
      (∀ j, j < i → ((dedupFirst (df.map (fun r => r.municipio))).map
        remover_acentos_e_lower).getD j "" ≠ m) ∧
      x = (dedupFirst (df.map (fun r => r.municipio))).getD i "" :=
  sugerir_output_spec q df k x hx

/-- Model of pandas `Series.mean` on the `População` column: sum over count;
undefined (division by zero) on an empty subset, modelled as an error. -/
def mean_pop (l : List Record) : Except String ℚ :=
  if l = [] then Except.error "mean requires at least one data point"
  else Except.ok ((l.map (fun r => (r.populacao : ℚ))).sum / (l.length : ℚ))

/-- Sum of the `População` column (`Series.sum`). -/
def sum_pop (l : List Record) : Int :=
  (l.map (fun r => r.populacao)).sum

/-- Fold step of pandas `Series.idxmin` followed by `df.loc`: keep the
current best row and replace it only when a later row has strictly smaller
population, so the first minimal row wins. -/
def idxminAux (best : Record) : List Record → Record
  | [] => best
  | x :: xs => idxminAux (if x.populacao < best.populacao then x else best) xs

/-- Model of `filtered_df.loc[filtered_df['População'].idxmin()]`: the first
row of the subset achieving the minimal population; `idxmin` raises
`ValueError: attempt to get argmin of an empty sequence` on an empty subset,
modelled as an error. -/
def idxmin_pop : List Record → Except String Record
  | [] => Except.error "attempt to get argmin of an empty sequence"
  | r :: rs => Except.ok (idxminAux r rs)

/-- Fold step of `Series.idxmax` followed by `df.loc`: replace only on a
strictly larger population, so the first maximal row wins. -/
def idxmaxAux (best : Record) : List Record → Record
  | [] => best
  | x :: xs => idxmaxAux (if best.populacao < x.populacao then x else best) xs

/-- Model of `filtered_df.loc[filtered_df['População'].idxmax()]`. -/
def idxmax_pop : List Record → Except String Record
  | [] => Except.error "attempt to get argmax of an empty sequence"
  | r :: rs => Except.ok (idxmaxAux r rs)

/-- Model of pandas `Series.std` via its square, the sample variance with
N-1 denominator (the square root is taken by the renderer's formatter and
adds nothing checkable); undefined on an empty subset, modelled as an
error (on a one-row subset pandas yields NaN, modelled by rational division
by zero which yields 0). -/
def variance_pop (l : List Record) : Except String ℚ :=
  if l = [] then Except.error "variance requires at least one data point"
  else
    Except.ok (((l.map (fun r =>
      ((r.populacao : ℚ) - (l.map (fun s => (s.populacao : ℚ))).sum / (l.length : ℚ))^2)).sum) /
      ((l.length : ℚ) - 1))

/-- Ascending insertion step for the quantile sort. -/
def insertAsc (x : ℚ) : List ℚ → List ℚ
  | [] => [x]
  | y :: ys => if x < y then x :: y :: ys else y :: insertAsc x ys

/-- Ascending sort of the population values. -/
def sortAsc : List ℚ → List ℚ
  | [] => []
  | x :: xs => insertAsc x (sortAsc xs)

/-- Model of pandas `Series.quantile(q)` with linear interpolation between
order statistics; undefined on an empty subset, modelled as an error. -/
def quantile_pop (l : List Record) (q : ℚ) : Except String ℚ :=
  if l = [] then Except.error "quantile requires at least one data point"
  else
    Except.ok (
      let s := sortAsc (l.map (fun r => (r.populacao : ℚ)))
      let pos : ℚ := q * ((l.length : ℚ) - 1)
      let i : Nat := Int.toNat ⌊pos⌋
      s.getD i 0 + (pos - (⌊pos⌋ : ℚ)) * (s.getD (i + 1) (s.getD i 0) - s.getD i 0))

/-- The user-visible outcome of `exibir_estatisticas`: the "load data first"
warning, the "no data for these filters" warning, or the statistics panel
(municipality count, total and mean population, the single identifying
minimum and maximum rows, and the dispersion/quartile figures). -/
inductive StatsView where
  | warnLoad : StatsView
  | noData : StatsView
  | stats : Nat → Int → ℚ → Record → Record → ℚ → ℚ → ℚ → ℚ → StatsView
deriving DecidableEq, Repr

/-- Embedding of `exibir_estatisticas` (src/Streamlit.py lines 222-277):
fetch the session dataframe (absent → "load first" warning), filter by the
selected criteria, and either render the statistics panel (computing mean,
min/max rows, std, quartiles on the non-empty subset) or the "no data"
warning.  The fallible pandas reductions are sequenced in `Except`, so an
uncaught pandas exception would surface as `Except.error`. -/
def exibir_estatisticas (sess : Option (List Record)) (ano uf regiao : String) :
    Except String StatsView :=
  match sess with
  | none => Except.ok StatsView.warnLoad
  | some df =>
    let filtered_df := filter_data df ano uf regiao
    if filtered_df ≠ [] then do
      let media ← mean_pop filtered_df
      let min_row ← idxmin_pop filtered_df
      let max_row ← idxmax_pop filtered_df
      let variancia ← variance_pop filtered_df
      let q1 ← quantile_pop filtered_df (1/4)
      let mediana ← quantile_pop filtered_df (1/2)
      let q3 ← quantile_pop filtered_df (3/4)
      pure (StatsView.stats filtered_df.length (sum_pop filtered_df) media
        min_row max_row variancia q1 mediana q3)
    else Except.ok StatsView.noData

/-- Descending insertion step on records by population (stable: ties keep
input order, pandas `nlargest` with `keep='first'`). -/
def insertDescRec (x : Record) : List Record → List Record
  | [] => [x]
  | y :: ys => if y.populacao < x.populacao then x :: y :: ys else y :: insertDescRec x ys

/-- Stable descending sort of records by population. -/
def sortDescRec : List Record → List Record
  | [] => []
  | x :: xs => insertDescRec x (sortDescRec xs)

/-- Model of `df.nlargest(n, 'População')`. -/
def nlargest_pop (n : Nat) (df : List Record) : List Record :=
  (sortDescRec df).take n

/-- The user-visible outcome of `display_graphs`: the "no data" warning, a
bar or line chart handed the top-10-municipality subset (the plotly figure
construction and the line-chart aggregation are the rendering collaborator's
work and are represented by the data handed over), or the caught-exception
error message produced when the chart kind matches neither branch and the
unbound `fig` raises. -/
inductive GraphView where
  | warnEmpty : GraphView
  | bar : List Record → GraphView
  | line : List Record → GraphView
  | renderError : String → GraphView
deriving DecidableEq, Repr

set_option linter.unusedVariables false in
/-- Embedding of `display_graphs` (src/Streamlit.py lines 125-174): an empty
dataframe short-circuits to the "Nenhum dado disponível" warning before any
chart work; otherwise the ten most populous municipalities are selected and
the requested chart is built inside a try/except that converts any raised
exception into an error message. -/
def display_graphs (df : List Record) (x_col y_col grafico : String) : GraphView :=
  if df = [] then GraphView.warnEmpty
  else
    let top_municipios := dedupFirst ((nlargest_pop 10 df).map (fun r => r.municipio))
    let df_filtered := df.filter (fun r => top_municipios.contains r.municipio)
    if grafico = "Barra" then GraphView.bar df_filtered
    else if grafico = "Linha" then GraphView.line df_filtered
    else GraphView.renderError "NameError: name fig is not defined"

theorem ok_bind {α β : Type} (a : α) (f : α → Except String β) :
    (Except.ok a : Except String α) >>= f = f a := rfl

theorem mean_pop_ok {l : List Record} (h : l ≠ []) :
    ∃ x, mean_pop l = Except.ok x :=
  ⟨_, by rw [mean_pop, if_neg h]⟩

theorem variance_pop_ok {l : List Record} (h : l ≠ []) :
    ∃ x, variance_pop l = Except.ok x :=
  ⟨_, by rw [variance_pop, if_neg h]⟩

theorem quantile_pop_ok {l : List Record} (h : l ≠ []) (q : ℚ) :
    ∃ x, quantile_pop l q = Except.ok x :=
  ⟨_, by rw [quantile_pop, if_neg h]⟩

theorem idxminAux_spec (rs : List Record) : ∀ best : Record,
    (∀ y ∈ best :: rs, (idxminAux best rs).populacao ≤ y.populacao) ∧
    ∃ l1 l2, best :: rs = l1 ++ (idxminAux best rs) :: l2 ∧
      ∀ y ∈ l1, (idxminAux best rs).populacao < y.populacao := by
  induction rs with
  | nil =>
    intro best
    exact ⟨by simp [idxminAux], [], [], by simp [idxminAux], by simp⟩
  | cons x xs ih =>
    intro best
    rw [idxminAux]
    by_cases hx : x.populacao < best.populacao
    · rw [if_pos hx]
      obtain ⟨hmin, l1, l2, hsplit, hstrict⟩ := ih x
      refine ⟨?_, best :: l1, l2, ?_, ?_⟩
      · intro y hy
        rcases List.mem_cons.mp hy with rfl | hy
        · exact le_trans (hmin x (by simp)) (le_of_lt hx)
        · exact hmin y hy
      · rw [List.cons_append, ← hsplit]
      · intro y hy
        rcases List.mem_cons.mp hy with rfl | hy
        · exact lt_of_le_of_lt (hmin x (by simp)) hx
        · exact hstrict y hy
    · rw [if_neg hx]
      push_neg at hx
      obtain ⟨hmin, l1, l2, hsplit, hstrict⟩ := ih best
      refine ⟨?_, ?_⟩
      · intro y hy
        rcases List.mem_cons.mp hy with rfl | hy
        · exact hmin y (by simp)
        · rcases List.mem_cons.mp hy with rfl | hy2
          · exact le_trans (hmin best (by simp)) hx
          · exact hmin y (by simp [hy2])
      · cases l1 with
        | nil =>
          simp only [List.nil_append] at hsplit
          injection hsplit with h1 h2
          exact ⟨[], x :: xs, by simp [← h1], by simp⟩
        | cons a t =>
          rw [List.cons_append] at hsplit
          injection hsplit with h1 h2
          refine ⟨best :: x :: t, l2, ?_, ?_⟩
          · rw [List.cons_append, List.cons_append]
            conv_lhs => rw [h2]
          · intro y hy
            have hres : (idxminAux best xs).populacao < best.populacao := by
              have := hstrict a (by simp)
              rwa [← h1] at this
            rcases List.mem_cons.mp hy with rfl | hy
            · exact hres
            · rcases List.mem_cons.mp hy with rfl | hy2
              · exact lt_of_lt_of_le hres hx
              · exact hstrict y (by simp [hy2])

theorem idxmaxAux_spec (rs : List Record) : ∀ best : Record,
    (∀ y ∈ best :: rs, y.populacao ≤ (idxmaxAux best rs).populacao) ∧
    ∃ l1 l2, best :: rs = l1 ++ (idxmaxAux best rs) :: l2 ∧
      ∀ y ∈ l1, y.populacao < (idxmaxAux best rs).populacao := by
  induction rs with
  | nil =>
    intro best
    exact ⟨by simp [idxmaxAux], [], [], by simp [idxmaxAux], by simp⟩
  | cons x xs ih =>
    intro best
    rw [idxmaxAux]
    by_cases hx : best.populacao < x.populacao
    · rw [if_pos hx]
      obtain ⟨hmax, l1, l2, hsplit, hstrict⟩ := ih x
      refine ⟨?_, best :: l1, l2, ?_, ?_⟩
      · intro y hy
        rcases List.mem_cons.mp hy with rfl | hy
        · exact le_trans (le_of_lt hx) (hmax x (by simp))
        · exact hmax y hy
      · rw [List.cons_append, ← hsplit]
      · intro y hy
        rcases List.mem_cons.mp hy with rfl | hy
        · exact lt_of_lt_of_le hx (hmax x (by simp))
        · exact hstrict y hy
    · rw [if_neg hx]
      push_neg at hx
      obtain ⟨hmax, l1, l2, hsplit, hstrict⟩ := ih best
      refine ⟨?_, ?_⟩
      · intro y hy
        rcases List.mem_cons.mp hy with rfl | hy
        · exact hmax y (by simp)
        · rcases List.mem_cons.mp hy with rfl | hy2
          · exact le_trans hx (hmax best (by simp))
          · exact hmax y (by simp [hy2])
      · cases l1 with
        | nil =>
          simp only [List.nil_append] at hsplit
          injection hsplit with h1 h2
          exact ⟨[], x :: xs, by simp [← h1], by simp⟩
        | cons a t =>
          rw [List.cons_append] at hsplit
          injection hsplit with h1 h2
          refine ⟨best :: x :: t, l2, ?_, ?_⟩
          · rw [List.cons_append, List.cons_append]
            conv_lhs => rw [h2]
          · intro y hy
            have hres : best.populacao < (idxmaxAux best xs).populacao := by
              have := hstrict a (by simp)
              rwa [← h1] at this
            rcases List.mem_cons.mp hy with rfl | hy
            · exact hres
            · rcases List.mem_cons.mp hy with rfl | hy2
              · exact lt_of_le_of_lt hx hres
              · exact hstrict y (by simp [hy2])

theorem idxmin_pop_spec {l : List Record} (h : l ≠ []) :
    ∃ r, idxmin_pop l = Except.ok r ∧
      (∀ y ∈ l, r.populacao ≤ y.populacao) ∧
      ∃ l1 l2, l = l1 ++ r :: l2 ∧ ∀ y ∈ l1, r.populacao < y.populacao := by
  cases l with
  | nil => exact absurd rfl h
  | cons a rs =>
    exact ⟨idxminAux a rs, rfl, (idxminAux_spec rs a).1, (idxminAux_spec rs a).2⟩

theorem idxmax_pop_spec {l : List Record} (h : l ≠ []) :
    ∃ r, idxmax_pop l = Except.ok r ∧
      (∀ y ∈ l, y.populacao ≤ r.populacao) ∧
      ∃ l1 l2, l = l1 ++ r :: l2 ∧ ∀ y ∈ l1, y.populacao < r.populacao := by
  cases l with
  | nil => exact absurd rfl h
  | cons a rs =>
    exact ⟨idxmaxAux a rs, rfl, (idxmaxAux_spec rs a).1, (idxmaxAux_spec rs a).2⟩

/-- Shared fact: on a non-empty filtered subset `exibir_estatisticas`
renders the statistics panel whose extreme rows are the ones delivered by
the argmin/argmax reductions. -/
theorem exibir_stats_eq {df : List Record} {ano uf regiao : String}
    (h : filter_data df ano uf regiao ≠ [])
    {mn mx : Record}
    (hmn : idxmin_pop (filter_data df ano uf regiao) = Except.ok mn)
    (hmx : idxmax_pop (filter_data df ano uf regiao) = Except.ok mx) :
    ∃ media variancia q1 mediana q3,
      exibir_estatisticas (some df) ano uf regiao = Except.ok
        (StatsView.stats (filter_data df ano uf regiao).length
          (sum_pop (filter_data df ano uf regiao)) media mn mx
          variancia q1 mediana q3) := by
  obtain ⟨media, hm⟩ := mean_pop_ok h
  obtain ⟨variancia, hv⟩ := variance_pop_ok h
  obtain ⟨q1, hq1⟩ := quantile_pop_ok h (1/4)
  obtain ⟨mediana, hq2⟩ := quantile_pop_ok h (1/2)
  obtain ⟨q3, hq3⟩ := quantile_pop_ok h (3/4)
  refine ⟨media, variancia, q1, mediana, q3, ?_⟩
  show (if filter_data df ano uf regiao ≠ [] then _ else _) = _
  rw [if_pos h, hm, ok_bind, hmn, ok_bind, hmx, ok_bind, hv, ok_bind,
    hq1, ok_bind, hq2, ok_bind, hq3, ok_bind]
  rfl

/-- Shared fact: an empty filtered subset renders the "no data" view without
entering the statistics branch. -/
theorem exibir_empty_noData {df : List Record} {ano uf regiao : String}
    (h : filter_data df ano uf regiao = []) :
    exibir_estatisticas (some df) ano uf regiao = Except.ok StatsView.noData := by
  show (if filter_data df ano uf regiao ≠ [] then _ else _) = _
  rw [if_neg (by simp [h])]

/-- Claim C8: an empty filter result is not an error — whenever the criteria match
no records, `exibir_estatisticas` renders the distinct "no data" warning
(never an exception, i.e. never `Except.error`), and `display_graphs`
applied to the empty subset renders its distinct "no data" warning instead
of a chart. -/
theorem c8_empty_result_not_error (df : List Record)
    (ano uf regiao x_col y_col grafico : String)
    (h : filter_data df ano uf regiao = []) :
    exibir_estatisticas (some df) ano uf regiao = Except.ok StatsView.noData ∧
    display_graphs (filter_data df ano uf regiao) x_col y_col grafico =
      GraphView.warnEmpty := by
  refine ⟨exibir_empty_noData h, ?_⟩
  rw [h]
  rfl

/-- Claim C9: the describe guard — `exibir_estatisticas` never produces an error
on any session state and criteria (every fallible statistic is evaluated
only behind the non-emptiness check), on an empty filtered subset it renders
the "no data" view without entering the statistics branch, while each
modelled statistic is itself undefined (an error) on an empty subset. -/
theorem c9_describe_guard (sess : Option (List Record)) (ano uf regiao : String) :
    (∃ v, exibir_estatisticas sess ano uf regiao = Except.ok v) ∧
    (∀ df, sess = some df → filter_data df ano uf regiao = [] →
      exibir_estatisticas sess ano uf regiao = Except.ok StatsView.noData) ∧
    mean_pop [] = Except.error "mean requires at least one data point" ∧
    idxmin_pop [] = Except.error "attempt to get argmin of an empty sequence" ∧
    idxmax_pop [] = Except.error "attempt to get argmax of an empty sequence" ∧
    quantile_pop [] (1/4) = Except.error "quantile requires at least one data point" := by
  refine ⟨?_, ?_, rfl, rfl, rfl, rfl⟩
  · cases sess with
    | none => exact ⟨StatsView.warnLoad, rfl⟩
    | some df =>
      by_cases h : filter_data df ano uf regiao = []
      · exact ⟨StatsView.noData, exibir_empty_noData h⟩
      · obtain ⟨mn, hmn, -, -⟩ := idxmin_pop_spec h
        obtain ⟨mx, hmx, -, -⟩ := idxmax_pop_spec h
        obtain ⟨media, variancia, q1, mediana, q3, heq⟩ := exibir_stats_eq h hmn hmx
        exact ⟨_, heq⟩
  · intro df hdf h
    subst hdf
    exact exibir_empty_noData h

/-- Claim C10: on a non-empty filtered subset the statistics view reports exactly
one identifying row per extreme, and on ties the reported row is the first
one in the subset's order: every record strictly before the reported minimum
(maximum) row has strictly greater (smaller) population, and the reported
row's population bounds the whole subset. -/
theorem c10_extremes_first_row (df : List Record) (ano uf regiao : String)
    (h : filter_data df ano uf regiao ≠ []) :
    ∃ media variancia q1 mediana q3 min_row max_row,
      exibir_estatisticas (some df) ano uf regiao = Except.ok
        (StatsView.stats (filter_data df ano uf regiao).length
          (sum_pop (filter_data df ano uf regiao)) media min_row max_row
          variancia q1 mediana q3) ∧
      (∀ y ∈ filter_data df ano uf regiao, min_row.populacao ≤ y.populacao) ∧
      (∃ l1 l2, filter_data df ano uf regiao = l1 ++ min_row :: l2 ∧
        ∀ y ∈ l1, min_row.populacao < y.populacao) ∧
      (∀ y ∈ filter_data df ano uf regiao, y.populacao ≤ max_row.populacao) ∧
      (∃ l1 l2, filter_data df ano uf regiao = l1 ++ max_row :: l2 ∧
        ∀ y ∈ l1, y.populacao < max_row.populacao) := by
  obtain ⟨mn, hmn, hminle, hminfirst⟩ := idxmin_pop_spec h
  obtain ⟨mx, hmx, hmaxle, hmaxfirst⟩ := idxmax_pop_spec h
  obtain ⟨media, variancia, q1, mediana, q3, heq⟩ := exibir_stats_eq h hmn hmx
  exact ⟨media, variancia, q1, mediana, q3, mn, mx, heq, hminle, hminfirst,
    hmaxle, hmaxfirst⟩

/-- Concrete record: the São Paulo observation of the spec scenarios. -/
def recSP : Record :=
  { ano := "2020", populacao := 12000000, codigo := "3550308",
    municipio := "São Paulo", uf := "SP", regiao := "Sudeste" }

/-- Concrete record: the Rio de Janeiro observation of the spec scenarios. -/
def recRJ : Record :=
  { ano := "2020", populacao := 6000000, codigo := "3304557",
    municipio := "Rio de Janeiro", uf := "RJ", regiao := "Sudeste" }

/-- Concrete record whose name is the unaccented variant of São Paulo, so the
two names collide after normalization. -/
def recSP2 : Record :=
  { ano := "2020", populacao := 11000000, codigo := "9999999",
    municipio := "Sao Paulo", uf := "SP", regiao := "Sudeste" }

/-- The two-record dataset of the spec scenarios. -/
def sampleDF : List Record := [recSP, recRJ]

/-- A record tying for the minimal population (first of its tie). -/
def recA : Record :=
  { ano := "2020", populacao := 5, codigo := "c1", municipio := "A",
    uf := "SP", regiao := "Sudeste" }

/-- A record tying for the minimal population (second of its tie). -/
def recB : Record :=
  { ano := "2020", populacao := 5, codigo := "c2", municipio := "B",
    uf := "SP", regiao := "Sudeste" }

/-- A record tying for the maximal population (first of its tie). -/
def recC : Record :=
  { ano := "2020", populacao := 9, codigo := "c3", municipio := "C",
    uf := "SP", regiao := "Sudeste" }

/-- A record tying for the maximal population (second of its tie). -/
def recD : Record :=
  { ano := "2020", populacao := 9, codigo := "c4", municipio := "D",
    uf := "SP", regiao := "Sudeste" }

/-- A dataset with ties for the minimal and maximal population. -/
def tieDF : List Record := [recA, recB, recC, recD]

set_option maxRecDepth 8192 in
theorem c3_suggestion_bound_witness :
    "São Paulo" ∈ sugerir_municipios "sao paolo" sampleDF 1 ∧
    "São Paulo" ∈ sampleDF.map (fun r => r.municipio) :=
  ⟨by decide,
    (c3_suggestion_bound "sao paolo" sampleDF 1).2.2.2 "São Paulo" (by decide)⟩

set_option maxRecDepth 8192 in
theorem c4_first_match_lookup_witness :
    recSP.municipio ≠ recSP2.municipio ∧
    remover_acentos_e_lower recSP.municipio =
      remover_acentos_e_lower recSP2.municipio ∧
    "São Paulo" ∈ sugerir_municipios "sao paulo" [recSP, recSP2] 2 ∧
    (∃ m i,
      i < (dedupFirst ([recSP, recSP2].map (fun r => r.municipio))).length ∧
      ((dedupFirst ([recSP, recSP2].map (fun r => r.municipio))).map
        remover_acentos_e_lower).getD i "" = m ∧
      (∀ j, j < i → ((dedupFirst ([recSP, recSP2].map (fun r => r.municipio))).map
        remover_acentos_e_lower).getD j "" ≠ m) ∧
      "São Paulo" = (dedupFirst ([recSP, recSP2].map (fun r => r.municipio))).getD i "") :=
  ⟨by decide, by decide, by decide,
    c4_first_match_lookup "sao paulo" [recSP, recSP2] 2 "São Paulo" (by decide)⟩

theorem c6_sentinel_neutrality_witness :
    (∀ r : Record, ((fun r : Record =>
      { r with uf := "ZZ", regiao := "Norte" }) r).ano = r.ano) ∧
    filter_data (sampleDF.map (fun r => { r with uf := "ZZ", regiao := "Norte" }))
        "2020" "Todos" "Todas" =
      (filter_data sampleDF "2020" "Todos" "Todas").map
        (fun r => { r with uf := "ZZ", regiao := "Norte" }) :=
  ⟨fun _ => rfl,
    (c6_sentinel_neutrality sampleDF "2020").2
      (fun r => { r with uf := "ZZ", regiao := "Norte" }) (fun _ => rfl)⟩

theorem c8_empty_result_not_error_witness :
    filter_data sampleDF "2019" "Todos" "Todas" = [] ∧
    (exibir_estatisticas (some sampleDF) "2019" "Todos" "Todas" =
      Except.ok StatsView.noData ∧
    display_graphs (filter_data sampleDF "2019" "Todos" "Todas")
      "UF" "População" "Barra" = GraphView.warnEmpty) :=
  ⟨by decide,
    c8_empty_result_not_error sampleDF "2019" "Todos" "Todas" "UF" "População"
      "Barra" (by decide)⟩

theorem c9_describe_guard_witness :
    exibir_estatisticas (some sampleDF) "2019" "Todos" "Todas" =
      Except.ok StatsView.noData :=
  (c9_describe_guard (some sampleDF) "2019" "Todos" "Todas").2.1 sampleDF rfl
    (by decide)

theorem c10_extremes_first_row_witness :
    filter_data tieDF "2020" "Todos" "Todas" ≠ [] ∧
    idxmin_pop (filter_data tieDF "2020" "Todos" "Todas") = Except.ok recA ∧
    idxmax_pop (filter_data tieDF "2020" "Todos" "Todas") = Except.ok recC ∧
    (∃ media variancia q1 mediana q3 min_row max_row,
      exibir_estatisticas (some tieDF) "2020" "Todos" "Todas" = Except.ok
        (StatsView.stats (filter_data tieDF "2020" "Todos" "Todas").length
          (sum_pop (filter_data tieDF "2020" "Todos" "Todas")) media min_row
          max_row variancia q1 mediana q3) ∧
      (∀ y ∈ filter_data tieDF "2020" "Todos" "Todas",
        min_row.populacao ≤ y.populacao) ∧
      (∃ l1 l2, filter_data tieDF "2020" "Todos" "Todas" = l1 ++ min_row :: l2 ∧
        ∀ y ∈ l1, min_row.populacao < y.populacao) ∧
      (∀ y ∈ filter_data tieDF "2020" "Todos" "Todas",
        y.populacao ≤ max_row.populacao) ∧
      (∃ l1 l2, filter_data tieDF "2020" "Todos" "Todas" = l1 ++ max_row :: l2 ∧
        ∀ y ∈ l1, y.populacao < max_row.populacao)) :=
  ⟨by decide, by rfl, by rfl,
    c10_extremes_first_row tieDF "2020" "Todos" "Todas" (by decide)⟩

end Dashboard
